import Mathlib

/-!
Verification development for the `streamlit_app.py` dashboard.

The dashboard's computational core is `synthesize_data` (source lines 72-111),
which builds five in-memory tables from hard-coded trend formulas plus draws
from numpy's ambient global random-number generator, and the presentation-layer
computations that consume them: the year-range filters (lines 138, 164-165,
183, 197), the sea-level metrics (lines 140-145), and the least-squares
trendline fit `np.polyfit(year, value, 1)` (lines 150-152).

Embedding choices:
  * Numeric values are rationals (ℚ).  `np.linspace`, cumulative sums,
    `np.clip`, groupby-sum aggregation and the ordinary-least-squares
    closed form are exact in ℚ.
  * The source calls numpy's ambient, unseeded RNG (`np.random.randn`,
    `np.random.uniform`).  That ambient state is modeled as an explicit
    `Noise` record of draw streams, one stream per call site, and the
    clock year `datetime.now().year` as an explicit `cy` argument.  The
    Python function takes neither: both are ambient inputs.
  * `np.clip(x, 0, None)` is `max x 0`.
  * Fallible spots (float division by zero producing NaN/inf, max/min of an
    empty frame producing NaN) are modeled with `Option`.
-/

/-- One row of the sea-level table: a (year, value) point.  The `date` column
of the source frame is a presentation-layer rendering of `year` and is not
modeled. -/
structure SeriesPoint where
  year : ℤ
  value : ℚ
deriving DecidableEq

/-- One row of a per-species table (`fish_distribution_change`,
`main_seafood_catch`): year, species label (어종), and catch value. -/
structure CatchRow where
  year : ℤ
  species : String
  value : ℚ
deriving DecidableEq

/-- One row of `main_seafood_economics`: year, total catch (어획량 (천 톤))
and price index (가격 지수). -/
structure EcoRow where
  year : ℤ
  total : ℚ
  price : ℚ
deriving DecidableEq

/-- One row of `student_nutrition`: year, weekly seafood intake, protein
contribution and omega-3 contribution. -/
structure NutRow where
  year : ℤ
  intake : ℚ
  protein : ℚ
  omega : ℚ
deriving DecidableEq

/-- The ambient numpy global RNG state consumed by `synthesize_data`, made
explicit: one stream of draws per `np.random.*` call site of the source.
`seaG` models `np.random.randn` at line 81, `distU1`/`distU2` the
`np.random.uniform(0.8, 1.2)` calls at lines 87-88, `catchU` the per-species
`np.random.uniform(0.85, 1.15)` draw of line 94 (keyed by the species being
processed), `priceG` the `np.random.randn` of line 100, and `nutU1`-`nutU3`
the three uniform draws of lines 107-109. -/
structure Noise where
  seaG : ℕ → ℚ
  distU1 : ℕ → ℚ
  distU2 : ℕ → ℚ
  catchU : String → ℕ → ℚ
  priceG : ℕ → ℚ
  nutU1 : ℕ → ℚ
  nutU2 : ℕ → ℚ
  nutU3 : ℕ → ℚ

/-- Element `i` of `np.linspace(a, b, n)`: `a + (b - a) * i / (n - 1)`.
For `n = 1` the division is by zero; ℚ division by zero returns 0, which
matches numpy's `linspace(a, b, 1) = [a]` at the only index `i = 0`. -/
def linspace (a b : ℚ) (n : ℕ) (i : ℕ) : ℚ :=
  a + (b - a) * (i : ℚ) / ((n : ℚ) - 1)

/-- Embedding of `np.clip(x, 0, None)`. -/
def clip0 (x : ℚ) : ℚ := max x 0

/-- Element `i` of `np.cumsum` applied to the stream `g`:
the running sum `g 0 + ... + g i`. -/
def cumsum (g : ℕ → ℚ) : ℕ → ℚ
  | 0 => g 0
  | i + 1 => cumsum g i + g (i + 1)

/-- Length of `np.arange(1990, current_year + 1)` (source line 79). -/
def nSea (cy : ℤ) : ℕ := (cy - 1990 + 1).toNat

/-- Length of `np.arange(2010, current_year + 1)` (source lines 85 and 104). -/
def nFish (cy : ℤ) : ℕ := (cy - 2010 + 1).toNat

/-- The ascending integer list `s, s+1, ..., s+n-1`, the embedding of
`np.arange(s, s + n)`. -/
def yearsFrom (s : ℤ) (n : ℕ) : List ℤ :=
  (List.range n).map (fun (i : ℕ) => s + (i : ℤ))

/-- Source lines 79-82: the `korea_sea_level` table.  Base rise
`np.linspace(0, 107, n)` plus `np.random.randn(n).cumsum() * 0.5`, over years
1990..current_year. -/
def mkSeaLevel (cy : ℤ) (nz : Noise) : List SeriesPoint :=
  (List.range (nSea cy)).map (fun (i : ℕ) =>
    ⟨1990 + (i : ℤ), linspace 0 107 (nSea cy) i + cumsum nz.seaG i * (1 / 2)⟩)

/-- One per-species block: a DataFrame of `n` rows with a constant species
label, years 2010.., and values `f i` (the body of lines 87, 88 and 94-95). -/
def catchSeries (n : ℕ) (name : String) (f : ℕ → ℚ) : List CatchRow :=
  (List.range n).map (fun (i : ℕ) => ⟨2010 + (i : ℤ), name, f i⟩)

/-- Source lines 86-89: the `fish_distribution_change` table, the
concatenation of the 명태 block (`linspace(100, 10, n) * uniform(0.8, 1.2, n)`)
and the 방어 block (`linspace(30, 90, n) * uniform(0.8, 1.2, n)`). -/
def mkFishDist (cy : ℤ) (nz : Noise) : List CatchRow :=
  catchSeries (nFish cy) "명태" (fun i => linspace 100 10 (nFish cy) i * nz.distU1 i) ++
  catchSeries (nFish cy) "방어" (fun i => linspace 30 90 (nFish cy) i * nz.distU2 i)

/-- One entry of the `trends` dict at source line 92: species name and the
(start, end) endpoints of its linear catch trend. -/
structure SpeciesTrend where
  name : String
  startV : ℚ
  endV : ℚ
deriving DecidableEq

/-- The `trends` dict of source line 92, in insertion order. -/
def speciesTrends : List SpeciesTrend :=
  [⟨"멸치", 220, 150⟩, ⟨"오징어", 150, 40⟩, ⟨"고등어", 180, 110⟩,
   ⟨"꽃게", 30, 15⟩, ⟨"낙지", 50, 25⟩]

/-- The configured species labels, in the order they are generated. -/
def speciesNames : List String := speciesTrends.map (·.name)

/-- Source lines 91-96: the `main_seafood_catch` table.  For each species in
`trends`, `np.clip(np.linspace(start, end, n) * np.random.uniform(0.85, 1.15, n), 0, None)`,
all blocks concatenated in dict order. -/
def mkSeafoodCatch (cy : ℤ) (nz : Noise) : List CatchRow :=
  speciesTrends.flatMap (fun t =>
    catchSeries (nFish cy) t.name
      (fun i => clip0 (linspace t.startV t.endV (nFish cy) i * nz.catchU t.name i)))

/-- Source line 98 (`groupby('year').sum()`), evaluated at the year
`2010 + j`: the sum of the catch values of all rows of `main_seafood_catch`
carrying that year. -/
def totalCatchAt (cy : ℤ) (nz : Noise) (j : ℕ) : ℚ :=
  (((mkSeafoodCatch cy nz).filter
      (fun r => decide (r.year = 2010 + (j : ℤ)))).map (·.value)).sum

/-- Source line 99: `total_catch.iloc[0]`, the total of the first (lowest)
year of the groupby result, which is year 2010.  On an empty frame the source
would raise; this total embedding returns the empty sum 0 there, a case no
theorem relies on. -/
def initial_catch (cy : ℤ) (nz : Noise) : ℚ := totalCatchAt cy nz 0

/-- Source lines 98-101: the `main_seafood_economics` table.  One row per
year 2010..current_year holding the groupby-sum total and the price index
`initial_catch / total * 100 + randn * 2`.  When a total is zero numpy's
float division yields inf/NaN; ℚ division returns 0 there — no theorem
relies on that case. -/
def mkEconomics (cy : ℤ) (nz : Noise) : List EcoRow :=
  (List.range (nFish cy)).map (fun (j : ℕ) =>
    ⟨2010 + (j : ℤ), totalCatchAt cy nz j,
      initial_catch cy nz / totalCatchAt cy nz j * 100 + nz.priceG j * 2⟩)

/-- Source lines 104-110: the `student_nutrition` table. -/
def mkNutrition (cy : ℤ) (nz : Noise) : List NutRow :=
  (List.range (nFish cy)).map (fun (i : ℕ) =>
    ⟨2010 + (i : ℤ),
      linspace 500 350 (nFish cy) i * nz.nutU1 i,
      linspace 18 15 (nFish cy) i * nz.nutU2 i,
      linspace 100 75 (nFish cy) i * nz.nutU3 i⟩)

/-- The `datasets` dict returned by `synthesize_data` (source line 75/111),
with one field per key. -/
structure Datasets where
  korea_sea_level : List SeriesPoint
  fish_distribution_change : List CatchRow
  main_seafood_catch : List CatchRow
  main_seafood_economics : List EcoRow
  student_nutrition : List NutRow
deriving DecidableEq

/-- Source lines 72-111, `synthesize_data()`.  The Python function takes no
arguments at all — no year range, no scenario, no seed.  Its two ambient
inputs, `datetime.now().year` (line 76) and the numpy global RNG state, are
made explicit here as `cy` and `nz`. -/
def synthesize_data (cy : ℤ) (nz : Noise) : Datasets :=
  { korea_sea_level := mkSeaLevel cy nz
    fish_distribution_change := mkFishDist cy nz
    main_seafood_catch := mkSeafoodCatch cy nz
    main_seafood_economics := mkEconomics cy nz
    student_nutrition := mkNutrition cy nz }

/-- The year-range mask of source lines 138/164-165/183/197:
`df[(df['year'] >= lo) & (df['year'] <= hi)]` on a (year, value) table. -/
def filterByYear (lo hi : ℤ) (s : List SeriesPoint) : List SeriesPoint :=
  s.filter (fun p => decide (lo ≤ p.year) && decide (p.year ≤ hi))

/-- Source line 138: `sl_filtered`, the sea-level table restricted to the
slider-selected year range. -/
def sl_filtered (cy : ℤ) (nz : Noise) (lo hi : ℤ) : List SeriesPoint :=
  filterByYear lo hi (synthesize_data cy nz).korea_sea_level

/-- Source line 140: `sl_filtered['value'].iloc[-1] - sl_filtered['value'].iloc[0]`.
On an empty frame the source raises `IndexError`; the defaults here cover
that case and no theorem relies on it. -/
def total_rise (cy : ℤ) (nz : Noise) (lo hi : ℤ) : ℚ :=
  ((sl_filtered cy nz lo hi).getLastD ⟨0, 0⟩).value -
    ((sl_filtered cy nz lo hi).headD ⟨0, 0⟩).value

/-- The `year` column of `sl_filtered`. -/
def slYears (cy : ℤ) (nz : Noise) (lo hi : ℤ) : List ℤ :=
  (sl_filtered cy nz lo hi).map (·.year)

/-- Maximum of a pandas integer column: `none` on an empty frame (pandas
yields NaN there), otherwise the greatest element. -/
def listMax : List ℤ → Option ℤ
  | [] => none
  | a :: l => some (l.foldl max a)

/-- Minimum of a pandas integer column: `none` on an empty frame. -/
def listMin : List ℤ → Option ℤ
  | [] => none
  | a :: l => some (l.foldl min a)

/-- Source line 141:
`avg_rise_per_year = total_rise / (sl_filtered['year'].max() - sl_filtered['year'].min())`.
The division is unguarded in the source; numpy float semantics produce
NaN/inf when the divisor is zero and NaN max/min on an empty frame.  Those
undefined outcomes are modeled as `none`. -/
def avg_rise_per_year (cy : ℤ) (nz : Noise) (lo hi : ℤ) : Option ℚ :=
  match listMax (slYears cy nz lo hi), listMin (slYears cy nz lo hi) with
  | some M, some m =>
      if M = m then none
      else some (total_rise cy nz lo hi / ((M : ℚ) - (m : ℚ)))
  | _, _ => none

/-- Sum of the x (year) column, for the normal equations of
`np.polyfit(year, value, 1)` (source line 150). -/
def sumX (pts : List SeriesPoint) : ℚ := (pts.map (fun p => ((p.year : ℚ)))).sum

/-- Sum of the value column. -/
def sumY (pts : List SeriesPoint) : ℚ := (pts.map (·.value)).sum

/-- Sum of year * value. -/
def sumXY (pts : List SeriesPoint) : ℚ :=
  (pts.map (fun p => (p.year : ℚ) * p.value)).sum

/-- Sum of year squared. -/
def sumXX (pts : List SeriesPoint) : ℚ :=
  (pts.map (fun p => (p.year : ℚ) * (p.year : ℚ))).sum

/-- Denominator `n * Σx² - (Σx)²` of the ordinary-least-squares slope. -/
def trendDenom (pts : List SeriesPoint) : ℚ :=
  (pts.length : ℚ) * sumXX pts - sumX pts * sumX pts

/-- Embedding of `np.polyfit(sl_filtered['year'], sl_filtered['value'], 1)`
(source line 150): the ordinary-least-squares fit of value against year by
the closed-form normal equations, returning (slope, intercept). -/
def linearTrend (pts : List SeriesPoint) : ℚ × ℚ :=
  let slope := ((pts.length : ℚ) * sumXY pts - sumX pts * sumY pts) / trendDenom pts
  (slope, (sumY pts - slope * sumX pts) / (pts.length : ℚ))

/-- The catch values carried by species `s` at year `y` in
`main_seafood_catch` (the cell a reader of the table would look up). -/
def catchValuesAt (cy : ℤ) (nz : Noise) (s : String) (y : ℤ) : List ℚ :=
  (((synthesize_data cy nz).main_seafood_catch).filter
      (fun r => decide (r.species = s) && decide (r.year = y))).map (·.value)

/-- The totals carried at year `y` in `main_seafood_economics`. -/
def ecoTotalsAt (cy : ℤ) (nz : Noise) (y : ℤ) : List ℚ :=
  (((synthesize_data cy nz).main_seafood_economics).filter
      (fun r => decide (r.year = y))).map (·.total)

/-- A concrete ambient RNG state: all Gaussian draws 0, all uniform draws 1. -/
def nzOne : Noise :=
  { seaG := fun _ => 0, distU1 := fun _ => 1, distU2 := fun _ => 1,
    catchU := fun _ _ => 1, priceG := fun _ => 0,
    nutU1 := fun _ => 1, nutU2 := fun _ => 1, nutU3 := fun _ => 1 }

/-- A second ambient RNG state, with uniform catch draws 11/10 and Gaussian
sea-level draws 1. -/
def nzB : Noise :=
  { seaG := fun _ => 1, distU1 := fun _ => 1, distU2 := fun _ => 1,
    catchU := fun _ _ => 11 / 10, priceG := fun _ => 0,
    nutU1 := fun _ => 1, nutU2 := fun _ => 1, nutU3 := fun _ => 1 }

/-! ## Helper lemmas about the numeric kernels -/

/-- The first linspace sample is the left endpoint, for every `n`. -/
theorem linspace_zero (a b : ℚ) (n : ℕ) : linspace a b n 0 = a := by
  simp [linspace]

/-- Linspace over `m + 2` samples written as a convex blend of the two
endpoints. -/
theorem linspace_blend (a b : ℚ) (m i : ℕ) :
    linspace a b (m + 1 + 1) i =
      a * (1 - (i : ℚ) / ((m : ℚ) + 1)) + b * ((i : ℚ) / ((m : ℚ) + 1)) := by
  unfold linspace
  have hden : ((m + 1 + 1 : ℕ) : ℚ) - 1 = (m : ℚ) + 1 := by push_cast; ring
  rw [hden, mul_div_assoc]
  ring

/-- Every linspace sample over nonnegative endpoints is nonnegative. -/
theorem linspace_nonneg (a b : ℚ) (n i : ℕ) (ha : 0 ≤ a) (hb : 0 ≤ b)
    (hi : i < n) : 0 ≤ linspace a b n i := by
  rcases n with _ | m
  · omega
  rcases m with _ | m
  · have : i = 0 := by omega
    subst this
    simp [linspace_zero, ha]
  have hm : (0 : ℚ) < (m : ℚ) + 1 := by positivity
  have ht0 : 0 ≤ (i : ℚ) / ((m : ℚ) + 1) := by positivity
  have ht1 : (i : ℚ) / ((m : ℚ) + 1) ≤ 1 := by
    rw [div_le_one hm]
    have : i ≤ m + 1 := by omega
    exact_mod_cast this
  rw [linspace_blend]
  have h1 : 0 ≤ a * (1 - (i : ℚ) / ((m : ℚ) + 1)) := mul_nonneg ha (by linarith)
  have h2 : 0 ≤ b * ((i : ℚ) / ((m : ℚ) + 1)) := mul_nonneg hb ht0
  linarith

/-- Every linspace sample over positive endpoints is positive. -/
theorem linspace_pos (a b : ℚ) (n i : ℕ) (ha : 0 < a) (hb : 0 < b)
    (hi : i < n) : 0 < linspace a b n i := by
  rcases n with _ | m
  · omega
  rcases m with _ | m
  · have : i = 0 := by omega
    subst this
    simp [linspace_zero, ha]
  have hm : (0 : ℚ) < (m : ℚ) + 1 := by positivity
  have ht0 : 0 ≤ (i : ℚ) / ((m : ℚ) + 1) := by positivity
  have ht1 : (i : ℚ) / ((m : ℚ) + 1) ≤ 1 := by
    rw [div_le_one hm]
    have : i ≤ m + 1 := by omega
    exact_mod_cast this
  rw [linspace_blend]
  rcases lt_or_eq_of_le ht1 with h | h
  · have h1 : 0 < a * (1 - (i : ℚ) / ((m : ℚ) + 1)) := mul_pos ha (by linarith)
    have h2 : 0 ≤ b * ((i : ℚ) / ((m : ℚ) + 1)) := mul_nonneg hb.le ht0
    linarith
  · rw [h]
    simpa using hb

/-- The cumulative sum at index `i` depends only on the draws up to `i`. -/
theorem cumsum_congr (g1 g2 : ℕ → ℚ) (i : ℕ) (h : ∀ j ≤ i, g1 j = g2 j) :
    cumsum g1 i = cumsum g2 i := by
  induction i with
  | zero => simpa [cumsum] using h 0 (le_refl 0)
  | succ i ih =>
      simp only [cumsum]
      rw [ih (fun j hj => h j (Nat.le_succ_of_le hj)), h (i + 1) (le_refl _)]

/-! ## List helpers -/

/-- Filtering `range n` for equality with `m < n` keeps exactly `[m]`. -/
theorem filter_range_single (n m : ℕ) (hm : m < n) :
    (List.range n).filter (fun i => decide (i = m)) = [m] := by
  induction n with
  | zero => omega
  | succ n ih =>
      rw [List.range_succ, List.filter_append]
      by_cases h : m = n
      · subst h
        have hnil : (List.range m).filter (fun i => decide (i = m)) = [] := by
          apply List.filter_eq_nil_iff.mpr
          intro a ha
          have ha2 := List.mem_range.mp ha
          simp only [decide_eq_true_eq]
          omega
        rw [hnil]
        simp
      · have hm2 : m < n := by omega
        rw [ih hm2]
        have hne : (decide ((n : ℕ) = m)) = false := by
          simp only [decide_eq_false_iff_not]
          omega
        simp [hne]

/-- Filtering `range n` by a lower bound keeps the upper segment. -/
theorem filter_range_ge (n a : ℕ) :
    (List.range n).filter (fun i => decide (a ≤ i)) =
      (List.range (n - a)).map (fun i => a + i) := by
  induction n with
  | zero => simp
  | succ n ih =>
      rw [List.range_succ, List.filter_append, ih]
      by_cases h : a ≤ n
      · have h1 : n + 1 - a = (n - a) + 1 := by omega
        rw [h1, List.range_succ, List.map_append]
        have hd : (decide (a ≤ n)) = true := by
          simp only [decide_eq_true_eq]; omega
        simp only [List.filter_cons, List.filter_nil, hd, if_true]
        have : a + (n - a) = n := by omega
        simp [this]
      · have h1 : n + 1 - a = 0 := by omega
        have h2 : n - a = 0 := by omega
        have hd : (decide (a ≤ n)) = false := by
          simp only [decide_eq_false_iff_not]; omega
        rw [h1, h2]
        simp [hd]

/-- Filtering `range n` by an upper bound keeps the lower segment. -/
theorem filter_range_le (n b : ℕ) :
    (List.range n).filter (fun i => decide (i ≤ b)) = List.range (min n (b + 1)) := by
  induction n with
  | zero => simp
  | succ n ih =>
      rw [List.range_succ, List.filter_append, ih]
      by_cases h : n ≤ b
      · have h1 : min (n + 1) (b + 1) = n + 1 := by omega
        have h2 : min n (b + 1) = n := by omega
        have hd : (decide (n ≤ b)) = true := by
          simp only [decide_eq_true_eq]; omega
        rw [h1, h2, List.range_succ]
        simp [hd]
      · have h1 : min (n + 1) (b + 1) = min n (b + 1) := by omega
        have hd : (decide (n ≤ b)) = false := by
          simp only [decide_eq_false_iff_not]; omega
        rw [h1]
        simp [hd]

/-- Filtering `range n` by a closed interval `[a, b]` with `b < n` keeps the
segment `a, ..., b`. -/
theorem filter_range_interval (n a b : ℕ) (hb : b < n) :
    (List.range n).filter (fun i => decide (a ≤ i) && decide (i ≤ b)) =
      (List.range (b + 1 - a)).map (fun i => a + i) := by
  have split : (List.range n).filter (fun i => decide (a ≤ i) && decide (i ≤ b)) =
      ((List.range n).filter (fun i => decide (i ≤ b))).filter (fun i => decide (a ≤ i)) := by
    rw [List.filter_filter]
  rw [split, filter_range_le]
  have hmin : min n (b + 1) = b + 1 := by omega
  rw [hmin, filter_range_ge]

/-- Unfolding `yearsFrom` at a successor length into a head year and a tail
starting one year later. -/
theorem yearsFrom_succ (s : ℤ) (k : ℕ) :
    yearsFrom s (k + 1) = s :: yearsFrom (s + 1) k := by
  unfold yearsFrom
  rw [List.range_succ_eq_map, List.map_cons, List.map_map]
  simp only [Nat.cast_zero, add_zero]
  congr 1
  apply List.map_congr_left
  intro i _
  simp only [Function.comp_apply, Nat.succ_eq_add_one]
  push_cast
  ring

/-- Left fold of `max` along an ascending year list. -/
theorem foldl_max_yearsFrom (k : ℕ) : ∀ (s init : ℤ),
    (yearsFrom s k).foldl max init = if k = 0 then init else max init (s + k - 1) := by
  induction k with
  | zero =>
      intro s init
      simp [yearsFrom]
  | succ k ih =>
      intro s init
      rw [yearsFrom_succ, List.foldl_cons, ih (s + 1) (max init s)]
      by_cases h : k = 0
      · subst h
        simp
      · rw [if_neg h, if_neg (by omega)]
        rw [max_assoc]
        congr 1
        rw [max_eq_right (by omega)]
        congr 1
        push_cast
        omega

/-- Left fold of `min` along an ascending year list started at a lower
bound. -/
theorem foldl_min_yearsFrom (k : ℕ) : ∀ (s init : ℤ), init ≤ s →
    (yearsFrom s k).foldl min init = init := by
  induction k with
  | zero =>
      intro s init _
      simp [yearsFrom]
  | succ k ih =>
      intro s init h
      rw [yearsFrom_succ, List.foldl_cons, min_eq_left h]
      exact ih (s + 1) init (by omega)

/-- The pandas `.max()` of a nonempty ascending year column is its last
year. -/
theorem listMax_yearsFrom (s : ℤ) (k : ℕ) (hk : k ≠ 0) :
    listMax (yearsFrom s k) = some (s + k - 1) := by
  rcases k with _ | k
  · omega
  rw [yearsFrom_succ]
  have hred : listMax (s :: yearsFrom (s + 1) k) =
      some ((yearsFrom (s + 1) k).foldl max s) := rfl
  rw [hred, foldl_max_yearsFrom]
  by_cases h : k = 0
  · subst h
    simp
  · rw [if_neg h]
    rw [max_eq_right (by omega)]
    congr 1
    push_cast
    omega

/-- The pandas `.min()` of a nonempty ascending year column is its first
year. -/
theorem listMin_yearsFrom (s : ℤ) (k : ℕ) (hk : k ≠ 0) :
    listMin (yearsFrom s k) = some s := by
  rcases k with _ | k
  · omega
  rw [yearsFrom_succ]
  have hred : listMin (s :: yearsFrom (s + 1) k) =
      some ((yearsFrom (s + 1) k).foldl min s) := rfl
  rw [hred, foldl_min_yearsFrom k (s + 1) s (by omega)]

/-- Congruence for `flatMap` under pointwise equal block builders. -/
theorem flatMap_congr_fun {α β : Type} (l : List α) (f g : α → List β)
    (h : ∀ a ∈ l, f a = g a) : l.flatMap f = l.flatMap g := by
  induction l with
  | nil => rfl
  | cons a l ih =>
      rw [List.flatMap_cons, List.flatMap_cons, h a (by simp),
        ih (fun x hx => h x (by simp [hx]))]

/-! ## Structure of the generated tables -/

/-- The year column of one per-species block is the hard-coded ascending
range starting at 2010. -/
theorem catchSeries_years (n : ℕ) (name : String) (f : ℕ → ℚ) :
    (catchSeries n name f).map (·.year) = yearsFrom 2010 n := by
  unfold catchSeries yearsFrom
  rw [List.map_map]
  rfl

/-- Filtering one per-species block for a year inside its range keeps exactly
the one row of that year. -/
theorem catchSeries_filter_year (n : ℕ) (name : String) (f : ℕ → ℚ) (m : ℕ)
    (hm : m < n) :
    (catchSeries n name f).filter (fun r => decide (r.year = 2010 + (m : ℤ))) =
      [⟨2010 + (m : ℤ), name, f m⟩] := by
  unfold catchSeries
  rw [List.filter_map]
  have hcongr : (List.range n).filter
      ((fun (r : CatchRow) => decide (r.year = 2010 + (m : ℤ))) ∘
        (fun (i : ℕ) => (⟨2010 + (i : ℤ), name, f i⟩ : CatchRow))) =
      (List.range n).filter (fun i => decide (i = m)) := by
    apply List.filter_congr
    intro i _
    simp only [Function.comp_apply]
    apply decide_eq_decide.mpr
    omega
  rw [hcongr, filter_range_single n m hm]
  rfl

/-- Filtering one per-species block on a species label different from its own
gives the empty table. -/
theorem catchSeries_filter_species_ne (n : ℕ) (name : String) (f : ℕ → ℚ)
    (s : String) (h : name ≠ s) :
    (catchSeries n name f).filter (fun r => decide (r.species = s)) = [] := by
  apply List.filter_eq_nil_iff.mpr
  intro r hr
  unfold catchSeries at hr
  obtain ⟨i, _, rfl⟩ := List.mem_map.mp hr
  simpa using h

/-- Filtering one per-species block on its own species label keeps the whole
block. -/
theorem catchSeries_filter_species_eq (n : ℕ) (name : String) (f : ℕ → ℚ) :
    (catchSeries n name f).filter (fun r => decide (r.species = name)) =
      catchSeries n name f := by
  apply List.filter_eq_self.mpr
  intro r hr
  unfold catchSeries at hr
  obtain ⟨i, _, rfl⟩ := List.mem_map.mp hr
  simp

/-- Membership in `main_seafood_catch`: exactly the rows produced by one of
the five configured trend entries at one in-range year index. -/
theorem mem_mkSeafoodCatch (cy : ℤ) (nz : Noise) (r : CatchRow) :
    r ∈ mkSeafoodCatch cy nz ↔
      ∃ t ∈ speciesTrends, ∃ i < nFish cy,
        r = ⟨2010 + (i : ℤ), t.name,
              clip0 (linspace t.startV t.endV (nFish cy) i * nz.catchU t.name i)⟩ := by
  unfold mkSeafoodCatch catchSeries
  rw [List.mem_flatMap]
  constructor
  · rintro ⟨t, ht, hr⟩
    obtain ⟨i, hi, rfl⟩ := List.mem_map.mp hr
    exact ⟨t, ht, i, List.mem_range.mp hi, rfl⟩
  · rintro ⟨t, ht, i, hi, rfl⟩
    exact ⟨t, ht, List.mem_map.mpr ⟨i, List.mem_range.mpr hi, rfl⟩⟩

/-- Filtering the whole catch table for one in-range year keeps exactly one
row per configured species, in configuration order. -/
theorem seafood_filter_year (cy : ℤ) (nz : Noise) (m : ℕ) (hm : m < nFish cy) :
    (mkSeafoodCatch cy nz).filter (fun r => decide (r.year = 2010 + (m : ℤ))) =
      speciesTrends.map (fun t =>
        ⟨2010 + (m : ℤ), t.name,
          clip0 (linspace t.startV t.endV (nFish cy) m * nz.catchU t.name m)⟩) := by
  unfold mkSeafoodCatch
  simp only [speciesTrends, List.flatMap_cons, List.flatMap_nil, List.append_nil,
    List.filter_append, List.map_cons, List.map_nil]
  rw [catchSeries_filter_year _ _ _ _ hm, catchSeries_filter_year _ _ _ _ hm,
    catchSeries_filter_year _ _ _ _ hm, catchSeries_filter_year _ _ _ _ hm,
    catchSeries_filter_year _ _ _ _ hm]
  rfl

/-- The groupby total at an in-range year index is the sum over the five
configured species of that year's clamped catch value. -/
theorem totalCatchAt_eq (cy : ℤ) (nz : Noise) (m : ℕ) (hm : m < nFish cy) :
    totalCatchAt cy nz m =
      (speciesTrends.map (fun t =>
        clip0 (linspace t.startV t.endV (nFish cy) m * nz.catchU t.name m))).sum := by
  unfold totalCatchAt
  rw [seafood_filter_year cy nz m hm, List.map_map]
  rfl

/-- Looking up species `t.name` at an in-range year in the catch table yields
exactly one value: the clamped jittered linspace sample of that year. -/
theorem catchValuesAt_eq (cy : ℤ) (nz : Noise) (t : SpeciesTrend)
    (ht : t ∈ speciesTrends) (m : ℕ) (hm : m < nFish cy) :
    catchValuesAt cy nz t.name (2010 + (m : ℤ)) =
      [clip0 (linspace t.startV t.endV (nFish cy) m * nz.catchU t.name m)] := by
  unfold catchValuesAt synthesize_data
  simp only
  have hsplit : (mkSeafoodCatch cy nz).filter
      (fun r => decide (r.species = t.name) && decide (r.year = 2010 + (m : ℤ))) =
      ((mkSeafoodCatch cy nz).filter
        (fun r => decide (r.year = 2010 + (m : ℤ)))).filter
          (fun r => decide (r.species = t.name)) := by
    rw [List.filter_filter]
  rw [hsplit, seafood_filter_year cy nz m hm]
  fin_cases ht <;> simp [speciesTrends]

/-- The rows of one species inside the catch table are exactly its block:
their year column is the hard-coded range 2010..current_year. -/
theorem seafood_species_years (cy : ℤ) (nz : Noise) (t : SpeciesTrend)
    (ht : t ∈ speciesTrends) :
    ((mkSeafoodCatch cy nz).filter
        (fun r => decide (r.species = t.name))).map (·.year) =
      yearsFrom 2010 (nFish cy) := by
  unfold mkSeafoodCatch
  simp only [speciesTrends, List.flatMap_cons, List.flatMap_nil, List.append_nil,
    List.filter_append, List.map_append]
  fin_cases ht <;>
    simp [catchSeries_filter_species_ne, catchSeries_filter_species_eq,
      catchSeries_years]

/-- With at least one generated year, the species labels occurring in the
catch table are exactly the configured ones. -/
theorem mem_seafood_species (cy : ℤ) (nz : Noise) (hcy : 2010 ≤ cy)
    (s : String) :
    s ∈ (mkSeafoodCatch cy nz).map (·.species) ↔ s ∈ speciesNames := by
  have hn : 0 < nFish cy := by unfold nFish; omega
  constructor
  · intro hs
    obtain ⟨r, hr, rfl⟩ := List.mem_map.mp hs
    obtain ⟨t, ht, i, _, rfl⟩ := (mem_mkSeafoodCatch cy nz r).mp hr
    exact List.mem_map.mpr ⟨t, ht, rfl⟩
  · intro hs
    obtain ⟨t, ht, rfl⟩ := List.mem_map.mp hs
    refine List.mem_map.mpr ⟨⟨2010, t.name,
      clip0 (linspace t.startV t.endV (nFish cy) 0 * nz.catchU t.name 0)⟩, ?_, rfl⟩
    refine (mem_mkSeafoodCatch cy nz _).mpr ⟨t, ht, 0, hn, ?_⟩
    simp

/-- Filtering the economics table for an in-range year keeps exactly the one
aggregated row of that year. -/
theorem econ_filter_year (cy : ℤ) (nz : Noise) (m : ℕ) (hm : m < nFish cy) :
    (mkEconomics cy nz).filter (fun r => decide (r.year = 2010 + (m : ℤ))) =
      [⟨2010 + (m : ℤ), totalCatchAt cy nz m,
        initial_catch cy nz / totalCatchAt cy nz m * 100 + nz.priceG m * 2⟩] := by
  unfold mkEconomics
  rw [List.filter_map]
  have hcongr : (List.range (nFish cy)).filter
      ((fun (r : EcoRow) => decide (r.year = 2010 + (m : ℤ))) ∘
        (fun (j : ℕ) => (⟨2010 + (j : ℤ), totalCatchAt cy nz j,
          initial_catch cy nz / totalCatchAt cy nz j * 100 + nz.priceG j * 2⟩ : EcoRow))) =
      (List.range (nFish cy)).filter (fun i => decide (i = m)) := by
    apply List.filter_congr
    intro i _
    simp only [Function.comp_apply]
    apply decide_eq_decide.mpr
    omega
  rw [hcongr, filter_range_single _ m hm]
  rfl

/-- The year column of the sea-level table is the hard-coded ascending range
1990..current_year. -/
theorem mkSeaLevel_years (cy : ℤ) (nz : Noise) :
    (mkSeaLevel cy nz).map (·.year) = yearsFrom 1990 (nSea cy) := by
  unfold mkSeaLevel yearsFrom
  rw [List.map_map]
  rfl

/-- The year column of the distribution-change table is two copies (one per
어종) of the hard-coded range 2010..current_year. -/
theorem mkFishDist_years (cy : ℤ) (nz : Noise) :
    (mkFishDist cy nz).map (·.year) =
      yearsFrom 2010 (nFish cy) ++ yearsFrom 2010 (nFish cy) := by
  unfold mkFishDist
  rw [List.map_append, catchSeries_years, catchSeries_years]

/-- The year column of the economics table is the hard-coded range
2010..current_year. -/
theorem mkEconomics_years (cy : ℤ) (nz : Noise) :
    (mkEconomics cy nz).map (·.year) = yearsFrom 2010 (nFish cy) := by
  unfold mkEconomics yearsFrom
  rw [List.map_map]
  rfl

/-- The year column of the nutrition table is the hard-coded range
2010..current_year. -/
theorem mkNutrition_years (cy : ℤ) (nz : Noise) :
    (mkNutrition cy nz).map (·.year) = yearsFrom 2010 (nFish cy) := by
  unfold mkNutrition yearsFrom
  rw [List.map_map]
  rfl

/-- The year column of the filtered sea-level frame for an in-range,
well-formed selection is the ascending range lo..hi. -/
theorem slYears_eq (cy : ℤ) (nz : Noise) (lo hi : ℤ) (hlo : 1990 ≤ lo)
    (hhi : hi ≤ cy) (hlh : lo ≤ hi) :
    slYears cy nz lo hi = yearsFrom lo (hi - lo + 1).toNat := by
  unfold slYears sl_filtered synthesize_data filterByYear mkSeaLevel
  simp only
  rw [List.filter_map, List.map_map]
  have hcongr : (List.range (nSea cy)).filter
      ((fun (p : SeriesPoint) => decide (lo ≤ p.year) && decide (p.year ≤ hi)) ∘
        (fun (i : ℕ) => (⟨1990 + (i : ℤ),
          linspace 0 107 (nSea cy) i + cumsum nz.seaG i * (1 / 2)⟩ : SeriesPoint))) =
      (List.range (nSea cy)).filter
        (fun i => decide ((lo - 1990).toNat ≤ i) && decide (i ≤ (hi - 1990).toNat)) := by
    apply List.filter_congr
    intro i _
    simp only [Function.comp_apply]
    have h1 : (lo ≤ 1990 + (i : ℤ)) ↔ ((lo - 1990).toNat ≤ i) := by omega
    have h2 : (1990 + (i : ℤ) ≤ hi) ↔ (i ≤ (hi - 1990).toNat) := by omega
    rw [decide_eq_decide.mpr h1, decide_eq_decide.mpr h2]
  rw [hcongr, filter_range_interval _ _ _ (by unfold nSea; omega), List.map_map]
  unfold yearsFrom
  have hlen : (hi - 1990).toNat + 1 - (lo - 1990).toNat = (hi - lo + 1).toNat := by
    omega
  rw [hlen]
  apply List.map_congr_left
  intro i _
  simp only [Function.comp_apply]
  omega

/-! ## Determinism in the ambient draws -/

/-- The sea-level table depends only on the first `nSea cy` Gaussian
draws. -/
theorem mkSeaLevel_congr (cy : ℤ) (n1 n2 : Noise)
    (h : ∀ i < nSea cy, n1.seaG i = n2.seaG i) :
    mkSeaLevel cy n1 = mkSeaLevel cy n2 := by
  unfold mkSeaLevel
  apply List.map_congr_left
  intro i hi
  have hi2 := List.mem_range.mp hi
  have hc : cumsum n1.seaG i = cumsum n2.seaG i :=
    cumsum_congr _ _ _ (fun j hj => h j (by omega))
  rw [hc]

/-- The distribution-change table depends only on the first `nFish cy`
uniform draws of its two call sites. -/
theorem mkFishDist_congr (cy : ℤ) (n1 n2 : Noise)
    (h1 : ∀ i < nFish cy, n1.distU1 i = n2.distU1 i)
    (h2 : ∀ i < nFish cy, n1.distU2 i = n2.distU2 i) :
    mkFishDist cy n1 = mkFishDist cy n2 := by
  unfold mkFishDist catchSeries
  congr 1
  · apply List.map_congr_left
    intro i hi
    simp only [h1 i (List.mem_range.mp hi)]
  · apply List.map_congr_left
    intro i hi
    simp only [h2 i (List.mem_range.mp hi)]

/-- The catch table depends only on the per-species uniform draws at the
configured labels and in-range indices. -/
theorem mkSeafoodCatch_congr (cy : ℤ) (n1 n2 : Noise)
    (h : ∀ s ∈ speciesNames, ∀ i < nFish cy, n1.catchU s i = n2.catchU s i) :
    mkSeafoodCatch cy n1 = mkSeafoodCatch cy n2 := by
  unfold mkSeafoodCatch
  apply flatMap_congr_fun
  intro t ht
  unfold catchSeries
  apply List.map_congr_left
  intro i hi
  simp only [h t.name (List.mem_map.mpr ⟨t, ht, rfl⟩) i (List.mem_range.mp hi)]

/-- The economics table depends only on the catch table and the first
`nFish cy` Gaussian price draws. -/
theorem mkEconomics_congr (cy : ℤ) (n1 n2 : Noise)
    (hcatch : mkSeafoodCatch cy n1 = mkSeafoodCatch cy n2)
    (hp : ∀ i < nFish cy, n1.priceG i = n2.priceG i) :
    mkEconomics cy n1 = mkEconomics cy n2 := by
  have htot : ∀ j, totalCatchAt cy n1 j = totalCatchAt cy n2 j := by
    intro j
    unfold totalCatchAt
    rw [hcatch]
  unfold mkEconomics initial_catch
  apply List.map_congr_left
  intro j hj
  rw [htot j, htot 0, hp j (List.mem_range.mp hj)]

/-- The nutrition table depends only on the first `nFish cy` draws of its
three uniform call sites. -/
theorem mkNutrition_congr (cy : ℤ) (n1 n2 : Noise)
    (h1 : ∀ i < nFish cy, n1.nutU1 i = n2.nutU1 i)
    (h2 : ∀ i < nFish cy, n1.nutU2 i = n2.nutU2 i)
    (h3 : ∀ i < nFish cy, n1.nutU3 i = n2.nutU3 i) :
    mkNutrition cy n1 = mkNutrition cy n2 := by
  unfold mkNutrition
  apply List.map_congr_left
  intro i hi
  have hi2 := List.mem_range.mp hi
  rw [h1 i hi2, h2 i hi2, h3 i hi2]

/-! ## Claim C1 -/

/-- Claim C1, counterexample.  The source `synthesize_data` takes no year
range, scenario or seed argument at all; its output is not a function of
such explicit inputs, because it reads the ambient numpy RNG state.  With
identical (empty) explicit argument lists but two different ambient RNG
states, the generated sea-level table differs: generation does depend on
ambient state, refuting the claim as stated. -/
theorem synthesize_data_ambient_dependent :
    (synthesize_data 2011 nzOne).korea_sea_level ≠
      (synthesize_data 2011 nzB).korea_sea_level := by
  intro h
  have h0 := congrArg (fun l => l[0]?) h
  simp only [synthesize_data, mkSeaLevel] at h0
  rw [List.getElem?_map, List.getElem?_map,
    List.getElem?_range (by norm_num [nSea])] at h0
  simp only [Option.map_some'] at h0
  have hv := congrArg (Option.map (·.value)) h0
  simp only [Option.map_some, SeriesPoint.mk.injEq, Option.some.injEq] at hv
  rw [linspace_zero] at hv
  simp only [cumsum, nzOne, nzB] at hv
  norm_num at hv

/-- Claim C1, amended.  `synthesize_data` has no yearRange/scenario/seed
parameters; its only inputs are the clock year and the ambient RNG draws.
Fixing those, generation is deterministic: any two ambient states that agree
on the draws actually consumed (the first `nSea cy` sea-level Gaussians, the
first `nFish cy` draws of each uniform call site at the configured species
labels, and the first `nFish cy` price Gaussians) produce identical
output. -/
theorem synthesize_data_deterministic (cy : ℤ) (n1 n2 : Noise)
    (hsea : ∀ i < nSea cy, n1.seaG i = n2.seaG i)
    (hd1 : ∀ i < nFish cy, n1.distU1 i = n2.distU1 i)
    (hd2 : ∀ i < nFish cy, n1.distU2 i = n2.distU2 i)
    (hc : ∀ s ∈ speciesNames, ∀ i < nFish cy, n1.catchU s i = n2.catchU s i)
    (hp : ∀ i < nFish cy, n1.priceG i = n2.priceG i)
    (hn1 : ∀ i < nFish cy, n1.nutU1 i = n2.nutU1 i)
    (hn2 : ∀ i < nFish cy, n1.nutU2 i = n2.nutU2 i)
    (hn3 : ∀ i < nFish cy, n1.nutU3 i = n2.nutU3 i) :
    synthesize_data cy n1 = synthesize_data cy n2 := by
  unfold synthesize_data
  rw [mkSeaLevel_congr cy n1 n2 hsea, mkFishDist_congr cy n1 n2 hd1 hd2,
    mkSeafoodCatch_congr cy n1 n2 hc,
    mkEconomics_congr cy n1 n2 (mkSeafoodCatch_congr cy n1 n2 hc) hp,
    mkNutrition_congr cy n1 n2 hn1 hn2 hn3]

/-- A third ambient RNG state that agrees with `nzOne` on every draw the
2011 generation consumes and differs beyond. -/
def nzC : Noise :=
  { seaG := fun i => if i < 22 then 0 else 7,
    distU1 := fun i => if i < 2 then 1 else 3,
    distU2 := fun i => if i < 2 then 1 else 4,
    catchU := fun _ i => if i < 2 then 1 else 9,
    priceG := fun i => if i < 2 then 0 else 5,
    nutU1 := fun i => if i < 2 then 1 else 6,
    nutU2 := fun i => if i < 2 then 1 else 2,
    nutU3 := fun i => if i < 2 then 1 else 8 }

/-- Claim C1, witness for the amended determinism theorem at current year
2011 and two concrete ambient states agreeing on all consumed draws. -/
theorem synthesize_data_deterministic_witness :
    synthesize_data 2011 nzOne = synthesize_data 2011 nzC :=
  synthesize_data_deterministic 2011 nzOne nzC (by decide) (by decide)
    (by decide) (by decide) (by decide) (by decide) (by decide) (by decide)

/-! ## Claim C8 -/

/-- Claim C8.  `synthesize_data` takes no year-range, scenario or seed
argument (its Lean signature carries only the ambient clock year and RNG
state).  Every generated span is hard-coded: the sea-level table runs
1990..current_year and the fisheries/economics/nutrition tables run
2010..current_year, with the end tied to the clock year; the user-selected
range enters only afterwards, as the filter of source line 138 over this
fixed output. -/
theorem hardcoded_spans (cy : ℤ) (nz : Noise) (lo hi : ℤ) (hcy : 2010 ≤ cy) :
    ((synthesize_data cy nz).korea_sea_level.map (·.year) =
      yearsFrom 1990 (nSea cy)) ∧
    ((synthesize_data cy nz).fish_distribution_change.map (·.year) =
      yearsFrom 2010 (nFish cy) ++ yearsFrom 2010 (nFish cy)) ∧
    ((synthesize_data cy nz).main_seafood_economics.map (·.year) =
      yearsFrom 2010 (nFish cy)) ∧
    ((synthesize_data cy nz).student_nutrition.map (·.year) =
      yearsFrom 2010 (nFish cy)) ∧
    (1990 + (nSea cy : ℤ) - 1 = cy) ∧
    (2010 + (nFish cy : ℤ) - 1 = cy) ∧
    (sl_filtered cy nz lo hi =
      filterByYear lo hi (synthesize_data cy nz).korea_sea_level) := by
  refine ⟨mkSeaLevel_years cy nz, mkFishDist_years cy nz, mkEconomics_years cy nz,
    mkNutrition_years cy nz, ?_, ?_, rfl⟩
  · unfold nSea
    omega
  · unfold nFish
    omega

/-- Claim C8, witness at current year 2011 with a concrete ambient state and
selection. -/
theorem hardcoded_spans_witness :
    ((synthesize_data 2011 nzOne).korea_sea_level.map (·.year) =
      yearsFrom 1990 (nSea 2011)) ∧
    ((synthesize_data 2011 nzOne).fish_distribution_change.map (·.year) =
      yearsFrom 2010 (nFish 2011) ++ yearsFrom 2010 (nFish 2011)) ∧
    ((synthesize_data 2011 nzOne).main_seafood_economics.map (·.year) =
      yearsFrom 2010 (nFish 2011)) ∧
    ((synthesize_data 2011 nzOne).student_nutrition.map (·.year) =
      yearsFrom 2010 (nFish 2011)) ∧
    (1990 + (nSea 2011 : ℤ) - 1 = 2011) ∧
    (2010 + (nFish 2011 : ℤ) - 1 = 2011) ∧
    (sl_filtered 2011 nzOne 1995 2005 =
      filterByYear 1995 2005 (synthesize_data 2011 nzOne).korea_sea_level) :=
  hardcoded_spans 2011 nzOne 1995 2005 (by decide)

/-! ## Claim C2 -/

/-- Claim C2, counterexample.  The generator cannot honor a caller-supplied
year range: with the clock at 2025, the 멸치 series it returns has 16 points
regardless of any selection, so for the valid requested range 2010..2011 the
point count is not endYear − startYear + 1 = 2. -/
theorem generator_ignores_requested_range :
    ((synthesize_data 2025 nzOne).main_seafood_catch.filter
        (fun r => decide (r.species = "멸치"))).length = 16 ∧
      (2011 - 2010 + 1 : ℤ) ≠ 16 := by
  constructor
  · have h := seafood_species_years 2025 nzOne ⟨"멸치", 220, 150⟩ (by decide)
    have h2 := congrArg List.length h
    rw [List.length_map] at h2
    simp only [synthesize_data]
    simp only at h2
    rw [h2]
    simp [yearsFrom, nFish]
  · decide

/-- Claim C2, amended.  The generator ignores any requested range; relative
to its own hard-coded range 2010..current_year the guarantee holds: the
species labels of the catch table are exactly the configured five, and each
label's rows carry exactly one point per year of the hard-coded range, years
contiguous and ascending with no gaps or duplicates, giving
current_year − 2010 + 1 points per label. -/
theorem generator_output_shape (cy : ℤ) (nz : Noise) (s : String)
    (t : SpeciesTrend) (hcy : 2010 ≤ cy) (ht : t ∈ speciesTrends) :
    (s ∈ (synthesize_data cy nz).main_seafood_catch.map (·.species) ↔
      s ∈ speciesNames) ∧
    (((synthesize_data cy nz).main_seafood_catch.filter
        (fun r => decide (r.species = t.name))).map (·.year) =
      yearsFrom 2010 (nFish cy)) ∧
    (((synthesize_data cy nz).main_seafood_catch.filter
        (fun r => decide (r.species = t.name))).length = (cy - 2010 + 1).toNat) := by
  refine ⟨mem_seafood_species cy nz hcy s, seafood_species_years cy nz t ht, ?_⟩
  have h := congrArg List.length (seafood_species_years cy nz t ht)
  rw [List.length_map] at h
  simp only [synthesize_data]
  rw [h]
  simp [yearsFrom, nFish]

/-- Claim C2, witness for the amended statement at current year 2011, label
방어 (absent from the table) and trend entry 멸치. -/
theorem generator_output_shape_witness :
    ("방어" ∈ (synthesize_data 2011 nzOne).main_seafood_catch.map (·.species) ↔
      "방어" ∈ speciesNames) ∧
    (((synthesize_data 2011 nzOne).main_seafood_catch.filter
        (fun r => decide (r.species = (⟨"멸치", 220, 150⟩ : SpeciesTrend).name))).map
          (·.year) = yearsFrom 2010 (nFish 2011)) ∧
    (((synthesize_data 2011 nzOne).main_seafood_catch.filter
        (fun r => decide (r.species = (⟨"멸치", 220, 150⟩ : SpeciesTrend).name))).length =
      (2011 - 2010 + 1 : ℤ).toNat) :=
  generator_output_shape 2011 nzOne "방어" ⟨"멸치", 220, 150⟩ (by decide) (by decide)

/-! ## Claim C4 -/

/-- Claim C4, counterexample.  A malformed range with endYear < startYear
does not make anything fail: the generator (which takes no range at all)
still returns its full nonempty output, and applying the malformed range at
the program's filter stage returns an empty frame, not an error.  No
InvalidRangeError — or any error path — exists. -/
theorem malformed_range_no_error :
    filterByYear 2000 1999 ((synthesize_data 2011 nzOne).korea_sea_level) = [] ∧
      (synthesize_data 2011 nzOne).korea_sea_level ≠ [] := by
  constructor
  · unfold filterByYear
    apply List.filter_eq_nil_iff.mpr
    intro p _
    simp only [Bool.and_eq_true, decide_eq_true_eq, not_and]
    omega
  · simp only [synthesize_data, mkSeaLevel]
    intro h
    have := congrArg List.length h
    simp [nSea] at this

/-- Claim C4, amended.  The generator has no year-range input and no failure
condition; a malformed range with endYear < startYear, applied where the
program actually uses ranges (the filter stage), yields an empty, non-error
result for every series. -/
theorem filterByYear_empty_of_malformed (lo hi : ℤ) (s : List SeriesPoint)
    (h : hi < lo) : filterByYear lo hi s = [] := by
  unfold filterByYear
  apply List.filter_eq_nil_iff.mpr
  intro p _
  simp only [Bool.and_eq_true, decide_eq_true_eq, not_and]
  omega

/-- Claim C4, witness: the amended statement applied to the generated
sea-level series and the malformed range 2000..1999. -/
theorem filterByYear_empty_of_malformed_witness :
    filterByYear 2000 1999 ((synthesize_data 2012 nzOne).korea_sea_level) = [] :=
  filterByYear_empty_of_malformed 2000 1999
    ((synthesize_data 2012 nzOne).korea_sea_level) (by decide)

/-! ## Claim C6 -/

/-- Claim C6.  The program's year-range filter returns exactly the
subsequence of points whose year lies in [lo, hi] inclusive (so it preserves
relative order); filtering with a range covering the whole series returns it
unchanged — in particular the generated sea-level series filtered by its own
full range 1990..current_year — and a range matching no points yields the
empty list as an ordinary, non-error value. -/
theorem filterByYearRange_spec (s : List SeriesPoint) (lo hi : ℤ) (cy : ℤ)
    (nz : Noise) (hcy : 1990 ≤ cy) :
    (filterByYear lo hi s).Sublist s ∧
    (∀ p, p ∈ filterByYear lo hi s ↔ p ∈ s ∧ lo ≤ p.year ∧ p.year ≤ hi) ∧
    ((∀ p ∈ s, lo ≤ p.year ∧ p.year ≤ hi) → filterByYear lo hi s = s) ∧
    ((∀ p ∈ s, p.year < lo ∨ hi < p.year) → filterByYear lo hi s = []) ∧
    (filterByYear 1990 cy (synthesize_data cy nz).korea_sea_level =
      (synthesize_data cy nz).korea_sea_level) := by
  refine ⟨List.filter_sublist s, ?_, ?_, ?_, ?_⟩
  · intro p
    unfold filterByYear
    simp [List.mem_filter, and_assoc]
  · intro hall
    unfold filterByYear
    apply List.filter_eq_self.mpr
    intro p hp
    simp only [Bool.and_eq_true, decide_eq_true_eq]
    exact hall p hp
  · intro hnone
    unfold filterByYear
    apply List.filter_eq_nil_iff.mpr
    intro p hp
    simp only [Bool.and_eq_true, decide_eq_true_eq, not_and]
    intro h1 h2
    rcases hnone p hp with h | h <;> omega
  · unfold filterByYear
    apply List.filter_eq_self.mpr
    intro p hp
    simp only [synthesize_data, mkSeaLevel] at hp
    obtain ⟨i, hi, rfl⟩ := List.mem_map.mp hp
    have hi2 := List.mem_range.mp hi
    simp only [Bool.and_eq_true, decide_eq_true_eq]
    unfold nSea at hi2
    omega

/-- Claim C6, witness at a concrete two-point series, selection 2012..2013
and clock year 2011. -/
theorem filterByYearRange_spec_witness :
    (filterByYear 2012 2013 [⟨2010, 1⟩, ⟨2012, 2⟩, ⟨2013, 3⟩]).Sublist
        [⟨2010, 1⟩, ⟨2012, 2⟩, ⟨2013, 3⟩] ∧
    (∀ p, p ∈ filterByYear 2012 2013 [⟨2010, 1⟩, ⟨2012, 2⟩, ⟨2013, 3⟩] ↔
      p ∈ [(⟨2010, 1⟩ : SeriesPoint), ⟨2012, 2⟩, ⟨2013, 3⟩] ∧
        2012 ≤ p.year ∧ p.year ≤ 2013) ∧
    ((∀ p ∈ [(⟨2010, 1⟩ : SeriesPoint), ⟨2012, 2⟩, ⟨2013, 3⟩],
        2012 ≤ p.year ∧ p.year ≤ 2013) →
      filterByYear 2012 2013 [⟨2010, 1⟩, ⟨2012, 2⟩, ⟨2013, 3⟩] =
        [⟨2010, 1⟩, ⟨2012, 2⟩, ⟨2013, 3⟩]) ∧
    ((∀ p ∈ [(⟨2010, 1⟩ : SeriesPoint), ⟨2012, 2⟩, ⟨2013, 3⟩],
        p.year < 2012 ∨ 2013 < p.year) →
      filterByYear 2012 2013 [⟨2010, 1⟩, ⟨2012, 2⟩, ⟨2013, 3⟩] = []) ∧
    (filterByYear 1990 2011 (synthesize_data 2011 nzOne).korea_sea_level =
      (synthesize_data 2011 nzOne).korea_sea_level) :=
  filterByYearRange_spec [⟨2010, 1⟩, ⟨2012, 2⟩, ⟨2013, 3⟩] 2012 2013 2011 nzOne
    (by decide)

/-! ## Claim C5 -/

/-- Endpoints of every configured catch trend are positive. -/
theorem trends_endpoints_pos : ∀ t ∈ speciesTrends, 0 < t.startV ∧ 0 < t.endV := by
  decide

/-- The catch value of any configured species at any in-range year moves
with the ambient uniform draw: the two concrete ambient states `nzOne`
(draws 1) and `nzB` (draws 11/10) give different values. -/
theorem catch_value_noise_sensitive (cy : ℤ) (t : SpeciesTrend)
    (ht : t ∈ speciesTrends) (m : ℕ) (hm : m < nFish cy) :
    catchValuesAt cy nzOne t.name (2010 + (m : ℤ)) ≠
      catchValuesAt cy nzB t.name (2010 + (m : ℤ)) := by
  rw [catchValuesAt_eq cy nzOne t ht m hm, catchValuesAt_eq cy nzB t ht m hm]
  have hL : 0 < linspace t.startV t.endV (nFish cy) m :=
    linspace_pos _ _ _ _ (trends_endpoints_pos t ht).1 (trends_endpoints_pos t ht).2 hm
  simp only [nzOne, nzB, mul_one, ne_eq, List.cons.injEq, and_true]
  have h1 : clip0 (linspace t.startV t.endV (nFish cy) m) =
      linspace t.startV t.endV (nFish cy) m := max_eq_left hL.le
  have h2 : clip0 (linspace t.startV t.endV (nFish cy) m * (11 / 10)) =
      linspace t.startV t.endV (nFish cy) m * (11 / 10) :=
    max_eq_left (by positivity)
  rw [h1, h2]
  intro heq
  nlinarith [hL, heq]

/-- Claim C5, counterexample.  No species' catch series contains any
seed-independent forced value: for every configured species and every year
of the 2011 generation, the stored value varies with the ambient RNG state,
so the claimed override (a value present "regardless of the seed" at one
species and one fixed year) does not exist anywhere in the table. -/
theorem no_override_exists :
    ¬ ∃ t ∈ speciesTrends, ∃ m < nFish 2011, ∀ n1 n2 : Noise,
        catchValuesAt 2011 n1 t.name (2010 + (m : ℤ)) =
          catchValuesAt 2011 n2 t.name (2010 + (m : ℤ)) := by
  rintro ⟨t, ht, m, hm, hall⟩
  exact catch_value_noise_sensitive 2011 t ht m hm (hall nzOne nzB)

/-- Claim C5, amended.  The source applies no post-processing override at
all: every value of the catch table comes from the one uniform formulaic
path (clamped jittered linspace), and consequently no species has a manually
forced, seed-independent value at any year — every cell varies with the
ambient draws. -/
theorem no_seed_independent_override (cy : ℤ) (hcy : 2010 ≤ cy)
    (t : SpeciesTrend) (ht : t ∈ speciesTrends) (y : ℤ)
    (hy1 : 2010 ≤ y) (hy2 : y ≤ cy) :
    (∀ n : Noise, catchValuesAt cy n t.name y =
      [clip0 (linspace t.startV t.endV (nFish cy) (y - 2010).toNat *
        n.catchU t.name (y - 2010).toNat)]) ∧
    (∃ n1 n2 : Noise,
      catchValuesAt cy n1 t.name y ≠ catchValuesAt cy n2 t.name y) := by
  have hm : (y - 2010).toNat < nFish cy := by unfold nFish; omega
  have hy : y = 2010 + ((y - 2010).toNat : ℤ) := by omega
  constructor
  · intro n
    have h := catchValuesAt_eq cy n t ht (y - 2010).toNat hm
    rw [← hy] at h
    exact h
  · refine ⟨nzOne, nzB, ?_⟩
    have h := catch_value_noise_sensitive cy t ht (y - 2010).toNat hm
    rw [← hy] at h
    exact h

/-- Claim C5, witness for the amended statement: species 오징어 at year 2010
of the 2011 generation. -/
theorem no_seed_independent_override_witness :
    (∀ n : Noise, catchValuesAt 2011 n (⟨"오징어", 150, 40⟩ : SpeciesTrend).name 2010 =
      [clip0 (linspace (⟨"오징어", 150, 40⟩ : SpeciesTrend).startV
        (⟨"오징어", 150, 40⟩ : SpeciesTrend).endV (nFish 2011) ((2010 - 2010 : ℤ)).toNat *
        n.catchU (⟨"오징어", 150, 40⟩ : SpeciesTrend).name ((2010 - 2010 : ℤ)).toNat)]) ∧
    (∃ n1 n2 : Noise,
      catchValuesAt 2011 n1 (⟨"오징어", 150, 40⟩ : SpeciesTrend).name 2010 ≠
        catchValuesAt 2011 n2 (⟨"오징어", 150, 40⟩ : SpeciesTrend).name 2010) :=
  no_seed_independent_override 2011 (by decide) ⟨"오징어", 150, 40⟩ (by decide)
    2010 (by decide) (by decide)

/-! ## Claim C7 -/

/-- On a series lying exactly on the line `value = a * year + b`, the
column sums used by the normal equations collapse linearly. -/
theorem sums_linear (pts : List SeriesPoint) (a b : ℚ)
    (h : ∀ p ∈ pts, p.value = a * (p.year : ℚ) + b) :
    sumY pts = a * sumX pts + b * (pts.length : ℚ) ∧
      sumXY pts = a * sumXX pts + b * sumX pts := by
  induction pts with
  | nil => simp [sumY, sumX, sumXY, sumXX]
  | cons p l ih =>
      have hp := h p (by simp)
      obtain ⟨ih1, ih2⟩ := ih (fun q hq => h q (by simp [hq]))
      constructor
      · simp only [sumY, sumX, List.map_cons, List.sum_cons, List.length_cons]
        simp only [sumY, sumX] at ih1
        rw [hp, ih1]
        push_cast
        ring
      · simp only [sumXY, sumXX, sumX, List.map_cons, List.sum_cons]
        simp only [sumXY, sumXX, sumX] at ih2
        rw [hp, ih2]
        ring

/-- Claim C7.  The embedding of `np.polyfit(year, value, 1)` is the
ordinary-least-squares fit of value against year; applied to a series whose
points lie exactly on the line `value = a * year + b` (and whose years are
not all equal, so the normal equations are nondegenerate), it returns
exactly that slope and intercept — in ℚ the recovery is exact, which is
within any floating-point tolerance. -/
theorem linearTrend_recovers (pts : List SeriesPoint) (a b : ℚ)
    (hlin : ∀ p ∈ pts, p.value = a * (p.year : ℚ) + b)
    (hden : trendDenom pts ≠ 0) :
    linearTrend pts = (a, b) := by
  obtain ⟨hY, hXY⟩ := sums_linear pts a b hlin
  have hne : pts ≠ [] := by
    intro hnil
    apply hden
    subst hnil
    simp [trendDenom, sumXX, sumX]
  have hn : ((pts.length : ℚ)) ≠ 0 := by
    have hl : pts.length ≠ 0 := fun hl => hne (List.length_eq_zero.mp hl)
    exact_mod_cast hl
  have hslope : ((pts.length : ℚ) * sumXY pts - sumX pts * sumY pts) /
      trendDenom pts = a := by
    rw [hXY, hY]
    have hnum : (pts.length : ℚ) * (a * sumXX pts + b * sumX pts) -
        sumX pts * (a * sumX pts + b * (pts.length : ℚ)) = a * trendDenom pts := by
      unfold trendDenom
      ring
    rw [hnum, mul_div_assoc, div_self hden, mul_one]
  unfold linearTrend
  simp only [hslope]
  have hint : (sumY pts - a * sumX pts) / (pts.length : ℚ) = b := by
    rw [hY]
    have : a * sumX pts + b * (pts.length : ℚ) - a * sumX pts =
        b * (pts.length : ℚ) := by ring
    rw [this, mul_div_assoc, div_self hn, mul_one]
  rw [hint]

/-- Claim C7, witness: a concrete three-point series on the line
`value = 2 * year + 1`. -/
theorem linearTrend_recovers_witness :
    linearTrend [⟨0, 1⟩, ⟨1, 3⟩, ⟨2, 5⟩] = (2, 1) :=
  linearTrend_recovers [⟨0, 1⟩, ⟨1, 3⟩, ⟨2, 5⟩] 2 1
    (by
      intro p hp
      simp only [List.mem_cons, List.not_mem_nil, or_false] at hp
      rcases hp with rfl | rfl | rfl <;> norm_num)
    (by norm_num [trendDenom, sumXX, sumX])

/-! ## Claim C9 -/

/-- Claim C9.  For every year of the generated range, the economics table
carries exactly one row for that year, and its total equals the sum over the
five configured species of that year's post-clamp catch values: the
economics table is an exact per-year sum aggregation of the catch table. -/
theorem economics_total_is_species_sum (cy : ℤ) (nz : Noise) (y : ℤ)
    (hy1 : 2010 ≤ y) (hy2 : y ≤ cy) :
    ecoTotalsAt cy nz y =
      [(speciesNames.map (fun s => (catchValuesAt cy nz s y).sum)).sum] := by
  have hm : (y - 2010).toNat < nFish cy := by unfold nFish; omega
  have hy : y = 2010 + ((y - 2010).toNat : ℤ) := by omega
  have hrhs : speciesNames.map (fun s => (catchValuesAt cy nz s y).sum) =
      speciesTrends.map (fun t =>
        clip0 (linspace t.startV t.endV (nFish cy) (y - 2010).toNat *
          nz.catchU t.name (y - 2010).toNat)) := by
    unfold speciesNames
    rw [List.map_map]
    apply List.map_congr_left
    intro t ht
    simp only [Function.comp_apply]
    have h := catchValuesAt_eq cy nz t ht (y - 2010).toNat hm
    rw [← hy] at h
    rw [h, List.sum_cons, List.sum_nil, add_zero]
  rw [hrhs]
  unfold ecoTotalsAt synthesize_data
  simp only
  have hfilter : (mkEconomics cy nz).filter (fun r => decide (r.year = y)) =
      [⟨y, totalCatchAt cy nz (y - 2010).toNat,
        initial_catch cy nz / totalCatchAt cy nz (y - 2010).toNat * 100 +
          nz.priceG (y - 2010).toNat * 2⟩] := by
    have h := econ_filter_year cy nz (y - 2010).toNat hm
    rw [← hy] at h
    exact h
  rw [hfilter, List.map_cons, List.map_nil]
  rw [totalCatchAt_eq cy nz (y - 2010).toNat hm]

/-- Claim C9, witness at current year 2011, year 2010, concrete ambient
state. -/
theorem economics_total_is_species_sum_witness :
    ecoTotalsAt 2011 nzOne 2010 =
      [(speciesNames.map (fun s => (catchValuesAt 2011 nzOne s 2010).sum)).sum] :=
  economics_total_is_species_sum 2011 nzOne 2010 (by decide) (by decide)

/-! ## Claim C10 -/

/-- Claim C10.  The annual-average-rise metric divides by
`max year - min year` of the filtered sea-level frame with no guard.  For
every single-year selection inside the data range the divisor is zero and
the metric is undefined (NaN/inf in the source's float semantics, `none`
here); for every selection spanning at least two distinct in-range years it
is well-defined. -/
theorem avg_rise_single_year_undefined (cy : ℤ) (nz : Noise) (y lo hi : ℤ)
    (hy1 : 1990 ≤ y) (hy2 : y ≤ cy) (h1 : 1990 ≤ lo) (h2 : lo < hi)
    (h3 : hi ≤ cy) :
    avg_rise_per_year cy nz y y = none ∧
      ∃ q : ℚ, avg_rise_per_year cy nz lo hi = some q := by
  constructor
  · have hys := slYears_eq cy nz y y hy1 hy2 le_rfl
    have hk : (y - y + 1).toNat = 1 := by omega
    rw [hk] at hys
    unfold avg_rise_per_year
    rw [hys, listMax_yearsFrom y 1 one_ne_zero, listMin_yearsFrom y 1 one_ne_zero]
    have hy : y + ((1 : ℕ) : ℤ) - 1 = y := by push_cast; ring
    rw [hy]
    simp
  · have hys := slYears_eq cy nz lo hi h1 h3 (le_of_lt h2)
    have hk : (hi - lo + 1).toNat ≠ 0 := by omega
    unfold avg_rise_per_year
    rw [hys, listMax_yearsFrom _ _ hk, listMin_yearsFrom _ _ hk]
    have hmax : lo + (((hi - lo + 1).toNat : ℕ) : ℤ) - 1 = hi := by omega
    rw [hmax]
    have hne : hi ≠ lo := by omega
    show ∃ q, (if hi = lo then none
      else some (total_rise cy nz lo hi / ((hi : ℚ) - (lo : ℚ)))) = some q
    rw [if_neg hne]
    exact ⟨_, rfl⟩

/-- Claim C10, witness at current year 2011: the single-year selection 2000
gives an undefined metric, the selection 1995..2005 a defined one. -/
theorem avg_rise_single_year_undefined_witness :
    avg_rise_per_year 2011 nzOne 2000 2000 = none ∧
      ∃ q : ℚ, avg_rise_per_year 2011 nzOne 1995 2005 = some q :=
  avg_rise_single_year_undefined 2011 nzOne 2000 1995 2005 (by decide) (by decide)
    (by decide) (by decide) (by decide)

/-! ## Claim C3 -/

/-- Claim C3.  After noise injection every catch-type value is nonnegative:
the `main_seafood_catch` values are clamped (`np.clip(·, 0, None)`) and so
are ≥ 0 for every ambient state, and the unclamped
`fish_distribution_change` catch values are ≥ 0 whenever the uniform draws
stay in their documented range [0.8, 1.2].  Price/index series carry no
clamp: there are ambient states making a price-index value and a sea-level
value negative. -/
theorem catch_clamp_invariant (cy : ℤ) (nz : Noise) (hcy : 2010 ≤ cy)
    (hU1 : ∀ i, (4 : ℚ) / 5 ≤ nz.distU1 i ∧ nz.distU1 i ≤ 6 / 5)
    (hU2 : ∀ i, (4 : ℚ) / 5 ≤ nz.distU2 i ∧ nz.distU2 i ≤ 6 / 5) :
    (∀ r ∈ (synthesize_data cy nz).main_seafood_catch, 0 ≤ r.value) ∧
    (∀ r ∈ (synthesize_data cy nz).fish_distribution_change, 0 ≤ r.value) ∧
    (∃ nz2 : Noise, ∃ r ∈ (synthesize_data cy nz2).main_seafood_economics,
      r.price < 0) ∧
    (∃ nz3 : Noise, ∃ r ∈ (synthesize_data cy nz3).korea_sea_level,
      r.value < 0) := by
  have hnf : 0 < nFish cy := by unfold nFish; omega
  have hns : 0 < nSea cy := by unfold nSea; omega
  refine ⟨?_, ?_, ?_, ?_⟩
  · intro r hr
    simp only [synthesize_data] at hr
    obtain ⟨t, _, i, _, rfl⟩ := (mem_mkSeafoodCatch cy nz r).mp hr
    exact le_max_right _ 0
  · intro r hr
    simp only [synthesize_data, mkFishDist] at hr
    rcases List.mem_append.mp hr with h | h <;>
      obtain ⟨i, hi, rfl⟩ := List.mem_map.mp h
    · have hlin : 0 ≤ linspace 100 10 (nFish cy) i :=
        linspace_nonneg _ _ _ _ (by norm_num) (by norm_num) (List.mem_range.mp hi)
      have hu : 0 ≤ nz.distU1 i := le_trans (by norm_num) (hU1 i).1
      exact mul_nonneg hlin hu
    · have hlin : 0 ≤ linspace 30 90 (nFish cy) i :=
        linspace_nonneg _ _ _ _ (by norm_num) (by norm_num) (List.mem_range.mp hi)
      have hu : 0 ≤ nz.distU2 i := le_trans (by norm_num) (hU2 i).1
      exact mul_nonneg hlin hu
  · refine ⟨{ nzOne with priceG := fun _ => -100 }, ?_⟩
    set nz2 : Noise := { nzOne with priceG := fun _ => -100 } with hnz2
    refine ⟨⟨2010 + ((0 : ℕ) : ℤ), totalCatchAt cy nz2 0,
      initial_catch cy nz2 / totalCatchAt cy nz2 0 * 100 + nz2.priceG 0 * 2⟩, ?_, ?_⟩
    · simp only [synthesize_data, mkEconomics]
      exact List.mem_map.mpr ⟨0, List.mem_range.mpr hnf, rfl⟩
    · simp only
      unfold initial_catch
      by_cases hT : totalCatchAt cy nz2 0 = 0
      · rw [hT]
        norm_num
      · rw [div_self hT]
        norm_num
  · refine ⟨{ nzOne with seaG := fun _ => -1 }, ?_⟩
    set nz3 : Noise := { nzOne with seaG := fun _ => -1 } with hnz3
    refine ⟨⟨1990 + ((0 : ℕ) : ℤ),
      linspace 0 107 (nSea cy) 0 + cumsum nz3.seaG 0 * (1 / 2)⟩, ?_, ?_⟩
    · simp only [synthesize_data, mkSeaLevel]
      exact List.mem_map.mpr ⟨0, List.mem_range.mpr hns, rfl⟩
    · simp only
      rw [linspace_zero]
      have hg : cumsum nz3.seaG 0 = -1 := rfl
      rw [hg]
      norm_num

/-- Claim C3, witness at current year 2011 with the concrete ambient state
`nzOne`, whose uniform draws (all 1) satisfy the documented bounds. -/
theorem catch_clamp_invariant_witness :
    (∀ r ∈ (synthesize_data 2011 nzOne).main_seafood_catch, 0 ≤ r.value) ∧
    (∀ r ∈ (synthesize_data 2011 nzOne).fish_distribution_change, 0 ≤ r.value) ∧
    (∃ nz2 : Noise, ∃ r ∈ (synthesize_data 2011 nz2).main_seafood_economics,
      r.price < 0) ∧
    (∃ nz3 : Noise, ∃ r ∈ (synthesize_data 2011 nz3).korea_sea_level,
      r.value < 0) :=
  catch_clamp_invariant 2011 nzOne (by decide)
    (fun i => ⟨by norm_num [nzOne], by norm_num [nzOne]⟩)
    (fun i => ⟨by norm_num [nzOne], by norm_num [nzOne]⟩)
